import Mathlib

/-!
Shallow embedding of the walletWatcher core (cursor tracker, balance differ,
expectation matcher and stores) together with proofs of its specified
properties.

Conventions of the embedding:
* JS numbers carrying token/SOL amounts are modelled as rationals (`ℚ`);
  timestamps (`Date` values, epoch milliseconds) as integers (`ℤ`).
* A JS `Map` is modelled as a `List` of its values (keyed by an `id` field)
  in insertion order: `Map.set` on a present key replaces the value in place,
  on an absent key it appends; `Array.from(map.values())` is the list itself.
* `undefined`-able fields are `Option`s; JS truthiness of a string is
  "nonempty", of a number "nonzero".
* A fallible operation (one that `throw`s) returns `Except String`; a store
  operation that mutates memory and then rewrites the backing file is run
  against an explicit `writeOk` flag standing for the success of the file
  write (`saveToFile` rethrows on failure after the in-memory mutation).
-/

/-- Status of an expected payment: `'pending' | 'received' | 'expired'`. -/
inductive PayStatus where
  | pending
  | received
  | expired
deriving DecidableEq, Repr

/-- `ExpectedPayment` from `types.ts`: target amount, scope (wallet and
optional token mint), note, times and status. -/
structure ExpectedPayment where
  id : String
  userId : String
  walletAddress : String
  expectedAmount : ℚ
  tokenMint : Option String
  note : String
  dateCreated : ℤ
  dueDate : Option ℤ
  tolerance : Option ℚ
  status : PayStatus
deriving DecidableEq, Repr

/-- `PaymentNote` from `types.ts`. -/
structure PaymentNote where
  id : String
  userId : String
  walletAddress : String
  transactionSignature : String
  note : String
  dateCreated : ℤ
  isExpectedPayment : Bool
  expectedPaymentId : Option String := none
deriving DecidableEq, Repr

/-- `ExpectedPaymentMatch` from `types.ts`, as produced by
`findMatchingExpectedPayment`. -/
structure ExpectedPaymentMatch where
  expectedPayment : ExpectedPayment
  actualAmount : ℚ
  variance : ℚ
  isExactMatch : Bool
  isWithinTolerance : Bool
deriving DecidableEq, Repr

/-- `Map.get(id)` over the insertion-ordered value list: first value whose
`id` matches (ids are unique in a real `Map`). -/
def mapGet (l : List ExpectedPayment) (pid : String) : Option ExpectedPayment :=
  l.find? (fun q => q.id = pid)

/-- `Map.set(p.id, p)`: replace in place when the key is present, append
otherwise. -/
def mapSet (l : List ExpectedPayment) (p : ExpectedPayment) : List ExpectedPayment :=
  if l.any (fun q => q.id = p.id) then
    l.map (fun q => if q.id = p.id then p else q)
  else
    l ++ [p]

/-- `ExpectedPaymentStorageService.addExpectedPayment` (in-memory effect):
`this.expectedPayments.set(expectedPayment.id, expectedPayment)`. -/
def addExpectedPayment (l : List ExpectedPayment) (p : ExpectedPayment) :
    List ExpectedPayment :=
  mapSet l p

/-- `ExpectedPaymentStorageService.removeExpectedPayment`: delete when the
payment exists and belongs to the user, otherwise throw. -/
def removeExpectedPayment (l : List ExpectedPayment) (userId pid : String) :
    Except String (List ExpectedPayment) :=
  match mapGet l pid with
  | some payment =>
      if payment.userId = userId then
        .ok (l.filter (fun q => ¬ q.id = pid))
      else
        .error "Expected payment not found or user not authorized"
  | none => .error "Expected payment not found or user not authorized"

/-- `ExpectedPaymentStorageService.updateExpectedPaymentStatus`: set the
status of the payment with the given id (any of the three statuses),
throwing when the id is unknown. -/
def updateExpectedPaymentStatus (l : List ExpectedPayment) (pid : String)
    (s : PayStatus) : Except String (List ExpectedPayment) :=
  match mapGet l pid with
  | some _ =>
      .ok (l.map (fun q => if q.id = pid then { q with status := s } else q))
  | none => .error "Expected payment not found"

/-- The due/pending test of `cleanupExpiredPayments`:
`payment.dueDate && payment.dueDate < now && payment.status === 'pending'`
(a `Date` object is always truthy). -/
def isOverduePending (now : ℤ) (p : ExpectedPayment) : Bool :=
  (match p.dueDate with
   | some d => decide (d < now)
   | none => false) && decide (p.status = PayStatus.pending)

/-- `ExpectedPaymentStorageService.cleanupExpiredPayments`: mark every
pending payment whose due date passed as expired. -/
def cleanupExpiredPayments (now : ℤ) (l : List ExpectedPayment) :
    List ExpectedPayment :=
  l.map (fun p =>
    if isOverduePending now p then { p with status := PayStatus.expired } else p)

/-- The scope-and-status filter of `findMatchingExpectedPayment`:
`payment.walletAddress === walletAddress && payment.status === 'pending'
&& payment.tokenMint === tokenMint`. -/
def pendingPaymentsFor (l : List ExpectedPayment) (walletAddress : String)
    (tokenMint : Option String) : List ExpectedPayment :=
  l.filter (fun p =>
    decide (p.walletAddress = walletAddress) &&
    decide (p.status = PayStatus.pending) &&
    decide (p.tokenMint = tokenMint))

/-- The tolerance test of the second loop of `findMatchingExpectedPayment`:
`payment.tolerance && payment.tolerance > 0` and
`Math.abs(payment.expectedAmount - amount) <= payment.tolerance`. -/
def toleranceQualifies (amount : ℚ) (p : ExpectedPayment) : Bool :=
  match p.tolerance with
  | some t => decide (0 < t) && decide (|p.expectedAmount - amount| ≤ t)
  | none => false

/-- `ExpectedPaymentStorageService.findMatchingExpectedPayment`: filter the
pending payments in scope, return the first exact-amount match, else the
first tolerance-band match, else nothing. -/
def findMatchingExpectedPayment (l : List ExpectedPayment)
    (walletAddress : String) (amount : ℚ) (tokenMint : Option String) :
    Option ExpectedPaymentMatch :=
  let pendingPayments := pendingPaymentsFor l walletAddress tokenMint
  match pendingPayments.find? (fun p => p.expectedAmount = amount) with
  | some payment =>
      some { expectedPayment := payment, actualAmount := amount, variance := 0,
             isExactMatch := true, isWithinTolerance := true }
  | none =>
      match pendingPayments.find? (toleranceQualifies amount) with
      | some payment =>
          some { expectedPayment := payment, actualAmount := amount,
                 variance := |payment.expectedAmount - amount|,
                 isExactMatch := false, isWithinTolerance := true }
      | none => none

/-! ## Payment notes -/

/-- `Map.set(n.id, n)` on the payment-notes map. -/
def noteSet (l : List PaymentNote) (n : PaymentNote) : List PaymentNote :=
  if l.any (fun m => m.id = n.id) then
    l.map (fun m => if m.id = n.id then n else m)
  else
    l ++ [n]

/-- `ExpectedPaymentStorageService.addPaymentNote` (in-memory effect):
`this.paymentNotes.set(paymentNote.id, paymentNote)` — no duplicate check. -/
def addPaymentNote (l : List PaymentNote) (n : PaymentNote) : List PaymentNote :=
  noteSet l n

/-- `ExpectedPaymentStorageService.getPaymentNoteByTransaction`: first note
whose `transactionSignature` matches, `null` otherwise. -/
def getPaymentNoteByTransaction (l : List PaymentNote) (sig : String) :
    Option PaymentNote :=
  l.find? (fun n => n.transactionSignature = sig)

/-- `DiscordBot.handleAddPaymentNote` (store effect): reject with a
validation reply when a note already exists for the transaction, otherwise
add a fresh note. Returns the new note list and whether the note was
accepted. -/
def handleAddPaymentNote (l : List PaymentNote) (userId sig noteText : String)
    (freshId : String) (now : ℤ) : List PaymentNote × Bool :=
  match getPaymentNoteByTransaction l sig with
  | some _ => (l, false)
  | none =>
      (addPaymentNote l
        { id := freshId, userId := userId, walletAddress := "",
          transactionSignature := sig, note := noteText, dateCreated := now,
          isExpectedPayment := false, expectedPaymentId := none }, true)

/-! ## WalletMonitor: match handling and the reconciliation tick -/

/-- The note built by `WalletMonitor.handleExpectedPaymentMatch` for a
matched expected payment and transaction signature. -/
def matchPaymentNote (m : ExpectedPaymentMatch) (sig : String)
    (freshId : String) (now : ℤ) : PaymentNote :=
  { id := freshId, userId := m.expectedPayment.userId,
    walletAddress := m.expectedPayment.walletAddress,
    transactionSignature := sig,
    note := "Expected payment: " ++ m.expectedPayment.note,
    dateCreated := now, isExpectedPayment := true,
    expectedPaymentId := some m.expectedPayment.id }

/-- Effect of `WalletMonitor.handleExpectedPaymentMatch` on the payments map:
set the matched payment's status to `received` (the surrounding `try/catch`
leaves the map unchanged when the update throws). -/
def handleMatchPayments (l : List ExpectedPayment) (m : ExpectedPaymentMatch) :
    List ExpectedPayment :=
  match updateExpectedPaymentStatus l m.expectedPayment.id PayStatus.received with
  | .ok l' => l'
  | .error _ => l

/-- Effect of `WalletMonitor.handleExpectedPaymentMatch` on the notes map:
unconditionally add the matcher-generated note (no duplicate check). -/
def handleMatchNotes (l : List PaymentNote) (m : ExpectedPaymentMatch)
    (sig : String) (freshId : String) (now : ℤ) : List PaymentNote :=
  addPaymentNote l (matchPaymentNote m sig freshId now)

/-- One matching attempt inside `checkExpectedPaymentMatches`: find a match
for the observed amount in scope and, when found, run the match handler on
the payments map. -/
def matchAndReceive (l : List ExpectedPayment) (walletAddress : String)
    (amount : ℚ) (tokenMint : Option String) : List ExpectedPayment :=
  match findMatchingExpectedPayment l walletAddress amount tokenMint with
  | some m => handleMatchPayments l m
  | none => l

/-- One parsed transaction as seen by `checkExpectedPaymentMatches`: a SOL
change and the per-mint token changes of the transaction summary. -/
structure TxSummary where
  signature : String
  solChange : ℚ
  tokenChanges : List (String × ℚ)
deriving DecidableEq, Repr

/-- `WalletMonitor.checkExpectedPaymentMatches` (payments-map effect): try a
SOL match when `solChange > 0`, then a token match for every positive token
change. -/
def checkExpectedPaymentMatches (l : List ExpectedPayment)
    (walletAddress : String) (tx : TxSummary) : List ExpectedPayment :=
  let l1 :=
    if 0 < tx.solChange then matchAndReceive l walletAddress tx.solChange none
    else l
  tx.tokenChanges.foldl
    (fun acc tc =>
      if 0 < tc.2 then matchAndReceive acc walletAddress tc.2 (some tc.1) else acc)
    l1

/-- Payments-map effect of one periodic reconciliation cycle
(`checkAllWallets`): per wallet, the new transactions are processed
oldest-first and each runs `checkExpectedPaymentMatches`. No call to
`cleanupExpiredPayments` occurs on this path. -/
def reconciliationTick (l : List ExpectedPayment)
    (work : List (String × List TxSummary)) : List ExpectedPayment :=
  work.foldl
    (fun acc w => w.2.foldl (fun acc2 tx => checkExpectedPaymentMatches acc2 w.1 tx) acc)
    l

/-- Payments-map effect of `WalletMonitor.start`: a single
`cleanupExpiredPayments` before the periodic checking begins. -/
def monitorStart (now : ℤ) (l : List ExpectedPayment) : List ExpectedPayment :=
  cleanupExpiredPayments now l

/-! ## Store operations as a transition system (for the status state machine) -/

/-- The mutating operations of the expected-payment store, as invoked by the
program: add (via `/expect-payment`), remove, the startup expiry cleanup,
and the match-driven receive; plus the raw status update the store itself
exposes. -/
inductive StoreOp where
  | add (p : ExpectedPayment)
  | remove (userId pid : String)
  | updateStatus (pid : String) (s : PayStatus)
  | cleanup (now : ℤ)
  | matchReceive (walletAddress : String) (amount : ℚ) (tokenMint : Option String)
deriving Repr

/-- One store operation applied to the payments map (a thrown error leaves
the in-memory map unchanged). -/
def storeStep (l : List ExpectedPayment) : StoreOp → List ExpectedPayment
  | .add p => addExpectedPayment l p
  | .remove uid pid =>
      match removeExpectedPayment l uid pid with
      | .ok l' => l'
      | .error _ => l
  | .updateStatus pid s =>
      match updateExpectedPaymentStatus l pid s with
      | .ok l' => l'
      | .error _ => l
  | .cleanup now => cleanupExpiredPayments now l
  | .matchReceive wa amt tm => matchAndReceive l wa amt tm

/-- A sequence of store operations, applied left to right. -/
def storeRun (l : List ExpectedPayment) (ops : List StoreOp) : List ExpectedPayment :=
  ops.foldl storeStep l

/-! ## Balance snapshots and the differ (`balanceStorage.ts`) -/

/-- One fungible-token balance entry (`TokenBalance` in `types.ts`). -/
structure TokenBalance where
  amount : ℚ
  decimals : ℕ
  name : Option String := none
  symbol : Option String := none
deriving DecidableEq, Repr

/-- `TokenBalances`: a JS object keyed by mint, modelled as a key-ordered
association list. -/
abbrev TokenBalances := List (String × TokenBalance)

/-- One non-fungible asset (`NFTAsset` in `types.ts`). -/
structure NFTAsset where
  id : String
  name : String
  collection : Option String := none
  image : Option String := none
deriving DecidableEq, Repr

/-- `WalletBalances` from `types.ts`: current snapshot of a wallet. -/
structure WalletBalances where
  solBalance : ℚ
  tokenBalances : TokenBalances
  nftCount : ℕ
  nftAssets : List NFTAsset
  totalAssets : ℕ
deriving DecidableEq, Repr

/-- `StoredBalances`: a snapshot plus the capture timestamp added by
`updateWalletBalances`. -/
structure StoredBalances where
  solBalance : ℚ
  tokenBalances : TokenBalances
  nftCount : ℕ
  nftAssets : List NFTAsset
  totalAssets : ℕ
  timestamp : String
deriving DecidableEq, Repr

/-- One per-mint change entry (`TokenChangeData` in `types.ts`). -/
structure TokenChangeData where
  change : ℚ
  previousAmount : ℚ
  currentAmount : ℚ
  decimals : ℕ
deriving DecidableEq, Repr

/-- Added/removed NFT lists (`NFTChanges` in `types.ts`). -/
structure NFTChanges where
  added : List NFTAsset
  removed : List NFTAsset
deriving DecidableEq, Repr

/-- `BalanceComparison` from `types.ts`. -/
structure BalanceComparison where
  isFirstCheck : Bool
  solChange : ℚ
  tokenChanges : List (String × TokenChangeData)
  nftChanges : NFTChanges
  previousTimestamp : Option String := none
deriving DecidableEq, Repr

/-- JS object property access `tokens[mint]` (keys are unique in an
object). -/
def objGet (tokens : TokenBalances) (mint : String) : Option TokenBalance :=
  (tokens.find? (fun e => e.1 = mint)).map Prod.snd

/-- `previousTokens[mint]?.amount || 0` (an absent entry and a zero amount
both give `0`). -/
def amountOrZero (tokens : TokenBalances) (mint : String) : ℚ :=
  match objGet tokens mint with
  | some tb => tb.amount
  | none => 0

/-- JS `a || b` on an optional number where `0` is falsy. -/
def jsOrNat (a : Option ℕ) (b : ℕ) : ℕ :=
  match a with
  | some n => if n = 0 then b else n
  | none => b

/-- `currentTokens[mint]?.decimals || previousTokens[mint]?.decimals || 9`. -/
def decimalsFor (previousTokens currentTokens : TokenBalances) (mint : String) : ℕ :=
  jsOrNat ((objGet currentTokens mint).map TokenBalance.decimals)
    (jsOrNat ((objGet previousTokens mint).map TokenBalance.decimals) 9)

/-- `new Set([...])` iteration: deduplicate keeping the first occurrence,
in insertion order. -/
def insertionDedup (l : List String) : List String :=
  l.foldl (fun acc x => if x ∈ acc then acc else acc ++ [x]) []

/-- The union of mints seen in either snapshot, as iterated by
`compareTokenBalances`. -/
def unionMints (previousTokens currentTokens : TokenBalances) : List String :=
  insertionDedup (previousTokens.map Prod.fst ++ currentTokens.map Prod.fst)

/-- `BalanceStorage.compareTokenBalances`: per union mint, the signed change
`current − previous`, kept only when non-zero. -/
def compareTokenBalances (previousTokens currentTokens : TokenBalances) :
    List (String × TokenChangeData) :=
  (unionMints previousTokens currentTokens).filterMap fun mint =>
    let previousAmount := amountOrZero previousTokens mint
    let currentAmount := amountOrZero currentTokens mint
    let change := currentAmount - previousAmount
    if change ≠ 0 then
      some (mint,
        { change := change, previousAmount := previousAmount,
          currentAmount := currentAmount,
          decimals := decimalsFor previousTokens currentTokens mint })
    else none

/-- `BalanceStorage.compareNFTs`: symmetric set difference by id. -/
def compareNFTs (previousNFTs currentNFTs : List NFTAsset) : NFTChanges :=
  let previousIds := previousNFTs.map NFTAsset.id
  let currentIds := currentNFTs.map NFTAsset.id
  { added := currentNFTs.filter (fun nft => ¬ nft.id ∈ previousIds),
    removed := previousNFTs.filter (fun nft => ¬ nft.id ∈ currentIds) }

/-- `BalanceStorage.compareBalances`, with the stored previous snapshot for
the address passed explicitly (`getPreviousBalances` result). -/
def compareBalances (previous : Option StoredBalances)
    (currentBalances : WalletBalances) : BalanceComparison :=
  match previous with
  | none =>
      { isFirstCheck := true, solChange := 0, tokenChanges := [],
        nftChanges := { added := [], removed := [] },
        previousTimestamp := none }
  | some previousBalances =>
      { isFirstCheck := false,
        solChange := currentBalances.solBalance - previousBalances.solBalance,
        tokenChanges :=
          compareTokenBalances previousBalances.tokenBalances
            currentBalances.tokenBalances,
        nftChanges :=
          compareNFTs previousBalances.nftAssets currentBalances.nftAssets,
        previousTimestamp := some previousBalances.timestamp }

/-- `BalanceStorage.hasSignificantChanges`. -/
def hasSignificantChanges (c : BalanceComparison) : Bool :=
  decide (c.solChange ≠ 0) ||
  decide (0 < c.tokenChanges.length) ||
  decide (0 < c.nftChanges.added.length) ||
  decide (0 < c.nftChanges.removed.length)

/-! ## Cursor tracker (`SolanaClient.getNewTransactions`) -/

/-- JS truthiness of the stored cursor string:
`!lastChecked` is true for a missing entry and for the empty string. -/
def cursorTruthy (c : Option String) : Bool :=
  match c with
  | some s => ¬ s = ""
  | none => false

/-- `SolanaClient.getNewTransactions` for one address: `sigs` is the
newest-first signature window returned by the feed, `cursor` the stored
`lastCheckedSignatures` entry. Returns the new transactions (newest-first)
and the updated cursor. -/
def getNewTransactions (sigs : List String) (cursor : Option String) :
    List String × Option String :=
  if cursorTruthy cursor = false then
    ([], some ((sigs.head?).getD ""))
  else
    let lastChecked := cursor.getD ""
    let newTransactions := sigs.takeWhile (fun s => ¬ s = lastChecked)
    if 0 < newTransactions.length then
      (newTransactions, some ((newTransactions.head?).getD ""))
    else
      (newTransactions, cursor)

/-! ## Persistence: in-memory mutation then full-file rewrite -/

/-- A store with its in-memory structure and the last file contents; the
backing file holds the serialization of the in-memory state as of the last
successful `saveToFile`. -/
structure PersistedStore (α : Type) where
  mem : α
  file : α
deriving Repr

/-- `addExpectedPayment` with persistence: mutate memory, then
`saveToFile`, whose failure (modelled by `writeOk = false`) rethrows after
the mutation. -/
def addExpectedPaymentP (writeOk : Bool) (p : ExpectedPayment)
    (s : PersistedStore (List ExpectedPayment)) :
    PersistedStore (List ExpectedPayment) × Except String Unit :=
  let mem' := addExpectedPayment s.mem p
  if writeOk then ({ mem := mem', file := mem' }, .ok ())
  else ({ mem := mem', file := s.file }, .error "Error saving expected payments")

/-- `updateExpectedPaymentStatus` with persistence. -/
def updateExpectedPaymentStatusP (writeOk : Bool) (pid : String) (st : PayStatus)
    (s : PersistedStore (List ExpectedPayment)) :
    PersistedStore (List ExpectedPayment) × Except String Unit :=
  match mapGet s.mem pid with
  | some _ =>
      let mem' := s.mem.map (fun q => if q.id = pid then { q with status := st } else q)
      if writeOk then ({ mem := mem', file := mem' }, .ok ())
      else ({ mem := mem', file := s.file }, .error "Error saving expected payments")
  | none => (s, .error "Expected payment not found")

/-- `Map.set` on the per-wallet stored-balances map of `BalanceStorage`. -/
def balancesSet (l : List (String × StoredBalances)) (wallet : String)
    (b : StoredBalances) : List (String × StoredBalances) :=
  if l.any (fun e => e.1 = wallet) then
    l.map (fun e => if e.1 = wallet then (wallet, b) else e)
  else
    l ++ [(wallet, b)]

/-- `BalanceStorage.updateWalletBalances` with persistence: stamp the
snapshot, set it in memory, then `saveToFile` (failure rethrows after the
mutation). -/
def updateWalletBalancesP (writeOk : Bool) (wallet : String)
    (balances : WalletBalances) (now : String)
    (s : PersistedStore (List (String × StoredBalances))) :
    PersistedStore (List (String × StoredBalances)) × Except String Unit :=
  let stored : StoredBalances :=
    { solBalance := balances.solBalance, tokenBalances := balances.tokenBalances,
      nftCount := balances.nftCount, nftAssets := balances.nftAssets,
      totalAssets := balances.totalAssets, timestamp := now }
  let mem' := balancesSet s.mem wallet stored
  if writeOk then ({ mem := mem', file := mem' }, .ok ())
  else ({ mem := mem', file := s.file }, .error "Error saving balance history")


/-! ## Shared sample data for witnesses and counterexamples -/

/-- A pending SOL expectation of exactly 1 on wallet `W`. -/
def samplePayment : ExpectedPayment :=
  { id := "a", userId := "u", walletAddress := "W", expectedAmount := 1,
    tokenMint := none, note := "rent", dateCreated := 0, dueDate := none,
    tolerance := none, status := PayStatus.pending }

/-- A pending SOL expectation of 2 with tolerance 2 on wallet `W`. -/
def sampleTolPayment : ExpectedPayment :=
  { id := "b", userId := "u", walletAddress := "W", expectedAmount := 2,
    tokenMint := none, note := "other", dateCreated := 0, dueDate := none,
    tolerance := some 2, status := PayStatus.pending }

/-- A pending SOL expectation of 5 with tolerance 5 on wallet `W`. -/
def sampleWideTolPayment : ExpectedPayment :=
  { id := "c", userId := "u", walletAddress := "W", expectedAmount := 5,
    tokenMint := none, note := "wide", dateCreated := 0, dueDate := none,
    tolerance := some 5, status := PayStatus.pending }

/-- A user-authored note on transaction `tx1`. -/
def sampleNote : PaymentNote :=
  { id := "n1", userId := "u", walletAddress := "W",
    transactionSignature := "tx1", note := "first", dateCreated := 0,
    isExpectedPayment := false, expectedPaymentId := none }

/-- A current snapshot: 2.5 SOL and 10 units of mint `M1`. -/
def sampleSnapshot : WalletBalances :=
  { solBalance := 5/2,
    tokenBalances := [("M1", { amount := 10, decimals := 6 })],
    nftCount := 0, nftAssets := [], totalAssets := 1 }

/-- A stored snapshot: 2.5 SOL and 10 units of mint `M1`. -/
def sampleStored : StoredBalances :=
  { solBalance := 5/2,
    tokenBalances := [("M1", { amount := 10, decimals := 6 })],
    nftCount := 0, nftAssets := [], totalAssets := 1, timestamp := "t0" }

/-! ## Theorems -/

/-- Claim C8: for an address with no previous stored snapshot, the first
diff sets the first-observation flag, and `hasSignificantChanges` of that
result is false, for every current snapshot whatsoever. -/
theorem first_diff_flagged_never_significant (curr : WalletBalances) :
    (compareBalances none curr).isFirstCheck = true ∧
    hasSignificantChanges (compareBalances none curr) = false := by
  refine ⟨rfl, ?_⟩
  simp [compareBalances, hasSignificantChanges]

/-- Claim C10: with no stored cursor and an empty activity window, the
cursor is seeded to the empty string; the empty string is treated exactly
like a missing cursor on the next call, so such an address stays in the
baseline state (every empty-window call returns the empty list and
re-stores `""`), and the first non-empty window seeds the cursor to the
newest item while returning no transactions. -/
theorem empty_window_seeds_empty_cursor :
    (getNewTransactions [] none = ([], some "")) ∧
    (∀ sigs, getNewTransactions sigs (some "") = getNewTransactions sigs none) ∧
    (getNewTransactions [] (some "") = ([], some "")) ∧
    (∀ s t, getNewTransactions (s :: t) (some "") = ([], some s)) := by
  refine ⟨rfl, fun sigs => ?_, rfl, fun s t => ?_⟩
  · simp [getNewTransactions, cursorTruthy]
  · simp [getNewTransactions, cursorTruthy]

/-- Claim C7: for an address with an established cursor, if the feed
window's newest identifier equals the stored cursor then
`getNewTransactions` returns the empty list and leaves the cursor
unchanged, and so does a second call on the resulting state. -/
theorem cursor_tracker_idempotent (sigs : List String) (c : String)
    (h : sigs.head? = some c) :
    getNewTransactions sigs (some c) = ([], some c) ∧
    getNewTransactions sigs (getNewTransactions sigs (some c)).2 =
      ([], some c) := by
  obtain ⟨t, rfl⟩ : ∃ t, sigs = c :: t := by
    cases sigs with
    | nil => simp at h
    | cons a t =>
        simp only [List.head?_cons, Option.some.injEq] at h
        exact ⟨t, by rw [h]⟩
  have h1 : getNewTransactions (c :: t) (some c) = ([], some c) := by
    by_cases hc : c = ""
    · subst hc
      simp [getNewTransactions, cursorTruthy]
    · simp [getNewTransactions, cursorTruthy, hc, List.takeWhile]
  exact ⟨h1, by rw [h1]; exact h1⟩

/-- Witness for C7 at a concrete window and cursor. -/
theorem cursor_tracker_idempotent_witness :
    getNewTransactions ["s1", "s2"] (some "s1") = ([], some "s1") ∧
    getNewTransactions ["s1", "s2"]
        (getNewTransactions ["s1", "s2"] (some "s1")).2 = ([], some "s1") :=
  cursor_tracker_idempotent ["s1", "s2"] "s1" rfl

/-- Reading back the key just written into the payments map yields the new
value (`Map.set` then `Map.get`). -/
theorem mapGet_mapSet_self (l : List ExpectedPayment) (p : ExpectedPayment) :
    mapGet (mapSet l p) p.id = some p := by
  unfold mapGet mapSet
  by_cases h : l.any (fun q => q.id = p.id) = true
  · rw [if_pos h]
    induction l with
    | nil => simp at h
    | cons a t ih =>
        by_cases ha : a.id = p.id
        · simp [List.find?, ha]
        · rw [List.any_cons] at h
          simp only [decide_eq_true_eq, ha, false_or, Bool.false_or,
            decide_eq_false ha] at h
          simp only [List.map_cons, if_neg ha]
          rw [List.find?_cons_of_neg _ (by simpa using ha)]
          exact ih h
  · rw [if_neg h]
    induction l with
    | nil => simp [List.find?]
    | cons a t ih =>
        have ha : ¬ a.id = p.id := by
          intro hh
          exact h (by simp [List.any_cons, hh])
        have ht : ¬ t.any (fun q => q.id = p.id) = true := by
          intro hh
          exact h (by simp [List.any_cons, hh])
        simp only [List.cons_append]
        rw [List.find?_cons_of_neg _ (by simpa using ha)]
        exact ih ht

/-- Claim C9: when the backing-file write fails, each mutating store
operation propagates the error to its caller while the in-memory mutation
stays applied (reads see the new value) and the file keeps its old
contents — no rollback. Shown for `addExpectedPayment`,
`updateExpectedPaymentStatus` (on an existing payment) and
`updateWalletBalances`. -/
theorem persistence_failure_propagates_no_rollback
    (wOk : Bool) (hw : wOk = false)
    (s : PersistedStore (List ExpectedPayment)) (p : ExpectedPayment)
    (pid : String) (st : PayStatus)
    (sb : PersistedStore (List (String × StoredBalances)))
    (w : String) (b : WalletBalances) (now : String) :
    ((addExpectedPaymentP wOk p s).2 =
        Except.error "Error saving expected payments" ∧
      (addExpectedPaymentP wOk p s).1.mem = addExpectedPayment s.mem p ∧
      mapGet (addExpectedPaymentP wOk p s).1.mem p.id = some p ∧
      (addExpectedPaymentP wOk p s).1.file = s.file) ∧
    ((mapGet s.mem pid).isSome = true →
      ((updateExpectedPaymentStatusP wOk pid st s).2 =
          Except.error "Error saving expected payments" ∧
        (updateExpectedPaymentStatusP wOk pid st s).1.mem =
          s.mem.map (fun r => if r.id = pid then { r with status := st } else r) ∧
        (updateExpectedPaymentStatusP wOk pid st s).1.file = s.file)) ∧
    ((updateWalletBalancesP wOk w b now sb).2 =
        Except.error "Error saving balance history" ∧
      (updateWalletBalancesP wOk w b now sb).1.mem =
        balancesSet sb.mem w
          { solBalance := b.solBalance, tokenBalances := b.tokenBalances,
            nftCount := b.nftCount, nftAssets := b.nftAssets,
            totalAssets := b.totalAssets, timestamp := now } ∧
      (updateWalletBalancesP wOk w b now sb).1.file = sb.file) := by
  subst hw
  refine ⟨⟨rfl, rfl, mapGet_mapSet_self s.mem p, rfl⟩, ?_, ⟨rfl, rfl, rfl⟩⟩
  intro hsome
  cases hq : mapGet s.mem pid with
  | none => rw [hq] at hsome; simp at hsome
  | some q =>
      simp only [updateExpectedPaymentStatusP, hq]
      exact ⟨rfl, rfl, rfl⟩

/-- A payments store holding the sample payment, with memory and file in
sync. -/
def samplePersisted : PersistedStore (List ExpectedPayment) :=
  { mem := [samplePayment], file := [samplePayment] }

/-- An empty balance store. -/
def sampleBalStore : PersistedStore (List (String × StoredBalances)) :=
  { mem := [], file := [] }

/-- Witness for C9 at concrete stores and a failing write. -/
theorem persistence_failure_witness :
    (addExpectedPaymentP false sampleTolPayment samplePersisted).2 =
      Except.error "Error saving expected payments" ∧
    mapGet (addExpectedPaymentP false sampleTolPayment samplePersisted).1.mem
      sampleTolPayment.id = some sampleTolPayment ∧
    (addExpectedPaymentP false sampleTolPayment samplePersisted).1.file =
      samplePersisted.file ∧
    (updateExpectedPaymentStatusP false "a" PayStatus.received
        samplePersisted).1.file = samplePersisted.file ∧
    (updateWalletBalancesP false "W" sampleSnapshot "t1" sampleBalStore).2 =
      Except.error "Error saving balance history" :=
  have T := persistence_failure_propagates_no_rollback false rfl
    samplePersisted sampleTolPayment "a" PayStatus.received
    sampleBalStore "W" sampleSnapshot "t1"
  ⟨T.1.1, T.1.2.2.1, T.1.2.2.2, (T.2.1 (by decide)).2.2, T.2.2.1⟩

/-- Claim C2: when the pending expectations in scope for
(wallet, asset) are an exactly-matching one and a tolerance-only one, in
either insertion order, `findMatchingExpectedPayment` returns the exact
one, with `isExactMatch = true` and `variance = 0`. -/
theorem matcher_exact_precedence
    (l : List ExpectedPayment) (wa : String) (amt : ℚ) (tm : Option String)
    (p1 p2 : ExpectedPayment)
    (h1 : p1.expectedAmount = amt)
    (h2 : p2.expectedAmount ≠ amt)
    (h2t : toleranceQualifies amt p2 = true)
    (hf : pendingPaymentsFor l wa tm = [p1, p2] ∨
          pendingPaymentsFor l wa tm = [p2, p1]) :
    findMatchingExpectedPayment l wa amt tm =
      some { expectedPayment := p1, actualAmount := amt, variance := 0,
             isExactMatch := true, isWithinTolerance := true } := by
  unfold findMatchingExpectedPayment
  rcases hf with hf | hf <;> rw [hf] <;> dsimp only
  · rw [List.find?_cons_of_pos _ (by simpa using h1)]
  · rw [List.find?_cons_of_neg _ (by simpa using h2),
      List.find?_cons_of_pos _ (by simpa using h1)]

/-- The tolerance-2 sample payment qualifies for an observed amount of 1. -/
theorem sampleTolPayment_qualifies_one :
    toleranceQualifies 1 sampleTolPayment = true := by
  norm_num [toleranceQualifies, sampleTolPayment, abs]

/-- Witness for C2: the exact expectation wins although it was inserted
after the tolerance-band one. -/
theorem matcher_exact_precedence_witness :
    findMatchingExpectedPayment [sampleTolPayment, samplePayment] "W" 1 none =
      some { expectedPayment := samplePayment, actualAmount := 1, variance := 0,
             isExactMatch := true, isWithinTolerance := true } :=
  matcher_exact_precedence [sampleTolPayment, samplePayment] "W" 1 none
    samplePayment sampleTolPayment rfl (by decide)
    sampleTolPayment_qualifies_one (Or.inr (by decide))

/-- Claim C3: when the pending expectations in scope both qualify only via
their tolerance bands, `findMatchingExpectedPayment` returns the
earlier-declared one even though the later one has a strictly smaller
variance. -/
theorem matcher_first_match_wins
    (l : List ExpectedPayment) (wa : String) (amt : ℚ) (tm : Option String)
    (p1 p2 : ExpectedPayment)
    (h1 : p1.expectedAmount ≠ amt)
    (h2 : p2.expectedAmount ≠ amt)
    (h1t : toleranceQualifies amt p1 = true)
    (hvar : |p2.expectedAmount - amt| < |p1.expectedAmount - amt|)
    (hf : pendingPaymentsFor l wa tm = [p1, p2]) :
    findMatchingExpectedPayment l wa amt tm =
      some { expectedPayment := p1, actualAmount := amt,
             variance := |p1.expectedAmount - amt|,
             isExactMatch := false, isWithinTolerance := true } := by
  unfold findMatchingExpectedPayment
  rw [hf]
  dsimp only
  rw [List.find?_cons_of_neg _ (by simpa using h1),
    List.find?_cons_of_neg _ (by simpa using h2),
    List.find?_cons_of_pos _ (by simpa using h1t)]
  rfl

/-- The tolerance-5 sample payment qualifies for an observed amount of 3. -/
theorem sampleWideTolPayment_qualifies_three :
    toleranceQualifies 3 sampleWideTolPayment = true := by
  norm_num [toleranceQualifies, sampleWideTolPayment, abs]

/-- The later tolerance payment has the strictly smaller variance at an
observed amount of 3. -/
theorem sample_variance_comparison :
    |sampleTolPayment.expectedAmount - 3| <
      |sampleWideTolPayment.expectedAmount - 3| := by
  norm_num [sampleTolPayment, sampleWideTolPayment, abs]

/-- Witness for C3: the earlier tolerance expectation (variance 2) beats
the later one (variance 1). -/
theorem matcher_first_match_wins_witness :
    findMatchingExpectedPayment [sampleWideTolPayment, sampleTolPayment]
        "W" 3 none =
      some { expectedPayment := sampleWideTolPayment, actualAmount := 3,
             variance := |sampleWideTolPayment.expectedAmount - 3|,
             isExactMatch := false, isWithinTolerance := true } :=
  matcher_first_match_wins [sampleWideTolPayment, sampleTolPayment] "W" 3 none
    sampleWideTolPayment sampleTolPayment (by decide) (by decide)
    sampleWideTolPayment_qualifies_three sample_variance_comparison (by decide)

/-- Membership in the fold underlying `insertionDedup`. -/
theorem mem_insertionDedup_foldl (x : String) (l acc : List String) :
    x ∈ l.foldl (fun a y => if y ∈ a then a else a ++ [y]) acc ↔
      x ∈ acc ∨ x ∈ l := by
  induction l generalizing acc with
  | nil => simp
  | cons a t ih =>
      simp only [List.foldl_cons]
      by_cases h : a ∈ acc
      · rw [if_pos h, ih]
        constructor
        · rintro (hx | hx)
          · exact Or.inl hx
          · exact Or.inr (List.mem_cons_of_mem _ hx)
        · rintro (hx | hx)
          · exact Or.inl hx
          · rcases List.mem_cons.mp hx with rfl | hx
            · exact Or.inl h
            · exact Or.inr hx
      · rw [if_neg h, ih]
        simp [List.mem_append, List.mem_cons]
        tauto

/-- `insertionDedup` preserves membership. -/
theorem mem_insertionDedup (x : String) (l : List String) :
    x ∈ insertionDedup l ↔ x ∈ l := by
  unfold insertionDedup
  rw [mem_insertionDedup_foldl]
  simp

/-- A mint appears among the keys of `compareTokenBalances` exactly when it
is in the union of mints and its amount changed. -/
theorem mem_keys_compareTokenBalances (prev curr : TokenBalances) (mint : String) :
    mint ∈ (compareTokenBalances prev curr).map Prod.fst ↔
      (mint ∈ unionMints prev curr ∧
        amountOrZero curr mint - amountOrZero prev mint ≠ 0) := by
  unfold compareTokenBalances
  simp only [List.mem_map, List.mem_filterMap]
  constructor
  · rintro ⟨pair, ⟨u, hu, hgu⟩, hfst⟩
    split_ifs at hgu with hch
    cases hgu
    subst hfst
    exact ⟨hu, hch⟩
  · rintro ⟨hu, hch⟩
    refine ⟨(mint,
      { change := amountOrZero curr mint - amountOrZero prev mint,
        previousAmount := amountOrZero prev mint,
        currentAmount := amountOrZero curr mint,
        decimals := decimalsFor prev curr mint }), ⟨mint, hu, ?_⟩, rfl⟩
    simp only [if_pos hch]

/-- Claim C4: for every previous/current snapshot pair, the diff's native
change is exactly current minus previous, and its fungible-change mapping
has an entry exactly for the union mints with non-zero change — in
particular no entry for any asset whose amount is equal in both
snapshots. -/
theorem diff_native_exact_and_no_zero_entries
    (prev : StoredBalances) (curr : WalletBalances) :
    ((compareBalances (some prev) curr).solChange =
        curr.solBalance - prev.solBalance) ∧
    (∀ mint,
      mint ∈ (compareBalances (some prev) curr).tokenChanges.map Prod.fst ↔
        (mint ∈ unionMints prev.tokenBalances curr.tokenBalances ∧
          amountOrZero curr.tokenBalances mint -
            amountOrZero prev.tokenBalances mint ≠ 0)) ∧
    (∀ mint,
      amountOrZero prev.tokenBalances mint =
          amountOrZero curr.tokenBalances mint →
        ¬ mint ∈ (compareBalances (some prev) curr).tokenChanges.map Prod.fst) := by
  refine ⟨rfl, fun mint => ?_, fun mint heq hmem => ?_⟩
  · exact mem_keys_compareTokenBalances prev.tokenBalances curr.tokenBalances mint
  · have h2 := (mem_keys_compareTokenBalances prev.tokenBalances
      curr.tokenBalances mint).mp hmem
    exact h2.2 (by rw [heq, sub_self])

/-- Witness for C4: with identical `M1` holdings on both sides, `M1` gets
no change entry, and the native delta is the exact subtraction. -/
theorem diff_native_exact_witness :
    (¬ "M1" ∈ (compareBalances (some sampleStored)
        sampleSnapshot).tokenChanges.map Prod.fst) ∧
    (compareBalances (some sampleStored) sampleSnapshot).solChange =
      sampleSnapshot.solBalance - sampleStored.solBalance :=
  have T := diff_native_exact_and_no_zero_entries sampleStored sampleSnapshot
  ⟨T.2.2 "M1" rfl, T.1⟩

/-- The sample payment with a due date already passed. -/
def sampleOverduePayment : ExpectedPayment :=
  { samplePayment with dueDate := some 0 }

/-- An already-expired sample payment. -/
def sampleExpiredPayment : ExpectedPayment :=
  { samplePayment with id := "e", status := PayStatus.expired }

/-- Counterexample to C5: a reconciliation cycle (here one with no new
transactions, run while the sample payment's due time `0` has long passed)
does not mark the overdue pending payment expired — expiry is not
evaluated during cycles at all. -/
theorem expiry_per_cycle_counterexample :
    sampleOverduePayment.status = PayStatus.pending ∧
    sampleOverduePayment.dueDate = some 0 ∧ (0 : ℤ) < 100 ∧
    reconciliationTick [sampleOverduePayment] [("W", [])] =
      [sampleOverduePayment] ∧
    (mapGet (reconciliationTick [sampleOverduePayment] [("W", [])])
        "a").map ExpectedPayment.status = some PayStatus.pending := by
  refine ⟨rfl, rfl, by decide, rfl, rfl⟩

/-- `matchAndReceive` never produces an expired payment that was not
already expired (it only moves a pending payment to received). -/
theorem matchAndReceive_no_new_expired (wa : String) (amt : ℚ)
    (tm : Option String) (l : List ExpectedPayment) (p' : ExpectedPayment)
    (hmem : p' ∈ matchAndReceive l wa amt tm)
    (hexp : p'.status = PayStatus.expired) :
    ∃ p ∈ l, p.id = p'.id ∧ p.status = PayStatus.expired := by
  unfold matchAndReceive at hmem
  cases hfind : findMatchingExpectedPayment l wa amt tm with
  | none =>
      rw [hfind] at hmem
      exact ⟨p', hmem, rfl, hexp⟩
  | some m =>
      rw [hfind] at hmem
      unfold handleMatchPayments at hmem
      dsimp only at hmem
      cases hupd : updateExpectedPaymentStatus l m.expectedPayment.id
          PayStatus.received with
      | error e =>
          rw [hupd] at hmem
          exact ⟨p', hmem, rfl, hexp⟩
      | ok l' =>
          rw [hupd] at hmem
          unfold updateExpectedPaymentStatus at hupd
          cases hg : mapGet l m.expectedPayment.id with
          | none => rw [hg] at hupd; cases hupd
          | some q =>
              rw [hg] at hupd
              cases hupd
              rw [List.mem_map] at hmem
              obtain ⟨p, hp, hfp⟩ := hmem
              by_cases hid : p.id = m.expectedPayment.id
              · rw [if_pos hid] at hfp
                rw [← hfp] at hexp
                cases hexp
              · rw [if_neg hid] at hfp
                subst hfp
                exact ⟨p, hp, rfl, hexp⟩

/-- Folding a step that never produces new expired payments never produces
new expired payments. -/
theorem foldl_no_new_expired {β : Type}
    (f : List ExpectedPayment → β → List ExpectedPayment)
    (hf : ∀ l b p', p' ∈ f l b → p'.status = PayStatus.expired →
      ∃ p ∈ l, p.id = p'.id ∧ p.status = PayStatus.expired) :
    ∀ (bs : List β) (l : List ExpectedPayment) (p' : ExpectedPayment),
      p' ∈ bs.foldl f l → p'.status = PayStatus.expired →
      ∃ p ∈ l, p.id = p'.id ∧ p.status = PayStatus.expired := by
  intro bs
  induction bs with
  | nil => intro l p' hmem hexp; exact ⟨p', hmem, rfl, hexp⟩
  | cons b bs ih =>
      intro l p' hmem hexp
      obtain ⟨p1, hp1, hid1, hexp1⟩ := ih (f l b) p' hmem hexp
      obtain ⟨p, hp, hid, hexps⟩ := hf l b p1 hp1 hexp1
      exact ⟨p, hp, hid.trans hid1, hexps⟩

/-- A whole `checkExpectedPaymentMatches` run never produces new expired
payments. -/
theorem checkMatches_no_new_expired (wa : String) (tx : TxSummary)
    (l : List ExpectedPayment) (p' : ExpectedPayment)
    (hmem : p' ∈ checkExpectedPaymentMatches l wa tx)
    (hexp : p'.status = PayStatus.expired) :
    ∃ p ∈ l, p.id = p'.id ∧ p.status = PayStatus.expired := by
  unfold checkExpectedPaymentMatches at hmem
  have hstep : ∀ (l0 : List ExpectedPayment) (tc : String × ℚ)
      (q : ExpectedPayment),
      q ∈ (if 0 < tc.2 then matchAndReceive l0 wa tc.2 (some tc.1) else l0) →
      q.status = PayStatus.expired →
      ∃ p ∈ l0, p.id = q.id ∧ p.status = PayStatus.expired := by
    intro l0 tc q hq hqe
    by_cases hc : 0 < tc.2
    · rw [if_pos hc] at hq
      exact matchAndReceive_no_new_expired wa tc.2 (some tc.1) l0 q hq hqe
    · rw [if_neg hc] at hq
      exact ⟨q, hq, rfl, hqe⟩
  obtain ⟨p1, hp1, hid1, hexp1⟩ :=
    foldl_no_new_expired _ hstep tx.tokenChanges _ p' hmem hexp
  by_cases hc : 0 < tx.solChange
  · rw [if_pos hc] at hp1
    obtain ⟨p, hp, hid, hexps⟩ :=
      matchAndReceive_no_new_expired wa tx.solChange none l p1 hp1 hexp1
    exact ⟨p, hp, hid.trans hid1, hexps⟩
  · rw [if_neg hc] at hp1
    exact ⟨p1, hp1, hid1, hexp1⟩

/-- Claim C5 (amended): expiry is evaluated once at monitor startup, not
once per reconciliation cycle. At startup every pending expectation whose
due time has passed is marked expired and no overdue-pending expectation
remains; a reconciliation cycle never marks any payment expired (a payment
expired after a cycle was already expired before it). -/
theorem expiry_once_at_startup (now : ℤ) (l : List ExpectedPayment)
    (work : List (String × List TxSummary)) :
    (∀ p ∈ l, isOverduePending now p = true →
      { p with status := PayStatus.expired } ∈ monitorStart now l) ∧
    (∀ p ∈ monitorStart now l, isOverduePending now p = false) ∧
    (∀ p', p' ∈ reconciliationTick l work →
      p'.status = PayStatus.expired →
      ∃ p ∈ l, p.id = p'.id ∧ p.status = PayStatus.expired) := by
  refine ⟨?_, ?_, ?_⟩
  · intro p hp hov
    unfold monitorStart cleanupExpiredPayments
    rw [List.mem_map]
    exact ⟨p, hp, by rw [if_pos hov]⟩
  · intro p hp
    unfold monitorStart cleanupExpiredPayments at hp
    rw [List.mem_map] at hp
    obtain ⟨q, _, hq⟩ := hp
    by_cases hov : isOverduePending now q = true
    · rw [if_pos hov] at hq
      subst hq
      simp [isOverduePending]
    · rw [if_neg (by simpa using hov)] at hq
      subst hq
      simpa using hov
  · intro p' hmem hexp
    unfold reconciliationTick at hmem
    have hw : ∀ (l0 : List ExpectedPayment) (w : String × List TxSummary)
        (q : ExpectedPayment),
        q ∈ w.2.foldl (fun acc2 tx => checkExpectedPaymentMatches acc2 w.1 tx) l0 →
        q.status = PayStatus.expired →
        ∃ p ∈ l0, p.id = q.id ∧ p.status = PayStatus.expired := by
      intro l0 w q hq hqe
      exact foldl_no_new_expired _
        (fun l1 tx r hr hre => checkMatches_no_new_expired w.1 tx l1 r hr hre)
        w.2 l0 q hq hqe
    exact foldl_no_new_expired _ hw work l p' hmem hexp

/-- Witness for the amended C5 at concrete inputs: startup expires the
overdue pending sample payment, and a cycle touching an already-expired
store traces the expired payment back to the initial store. -/
theorem expiry_once_at_startup_witness :
    ({ sampleOverduePayment with status := PayStatus.expired } ∈
      monitorStart 100 [sampleOverduePayment]) ∧
    (∃ p ∈ [sampleExpiredPayment], p.id = sampleExpiredPayment.id ∧
      p.status = PayStatus.expired) :=
  ⟨(expiry_once_at_startup 100 [sampleOverduePayment] []).1
      sampleOverduePayment (by decide) (by decide),
   (expiry_once_at_startup 100 [sampleExpiredPayment] [("W", [])]).2.2
      sampleExpiredPayment (by decide) rfl⟩

/-- The exact match of the sample payment, as produced by the matcher. -/
def sampleMatch : ExpectedPaymentMatch :=
  { expectedPayment := samplePayment, actualAmount := 1, variance := 0,
    isExactMatch := true, isWithinTolerance := true }

/-- Counterexample to C6: transaction `tx1` already has a note, yet the
matcher-generated note path attaches a second note to it instead of
rejecting — afterwards two notes carry the same transaction identifier. -/
theorem duplicate_note_via_matcher_counterexample :
    getPaymentNoteByTransaction [sampleNote] "tx1" = some sampleNote ∧
    ((handleMatchNotes [sampleNote] sampleMatch "tx1" "n2" 5).filter
        (fun n => n.transactionSignature = "tx1")).length = 2 := by
  exact ⟨rfl, by decide⟩

/-- Claim C6 (amended): only the explicit note command enforces the
one-note-per-transaction rule — `handleAddPaymentNote` rejects with a
validation error when a note already exists for the transaction, leaving
the store (and thus the original note) unchanged, and when no note exists
it adds exactly one note for that transaction. The matcher-generated path
performs no such check (see the counterexample). -/
theorem note_duplicate_rejected_command_path
    (l : List PaymentNote) (uid sig txt fid : String) (now : ℤ) :
    (∀ n0, getPaymentNoteByTransaction l sig = some n0 →
      handleAddPaymentNote l uid sig txt fid now = (l, false) ∧ n0 ∈ l) ∧
    (getPaymentNoteByTransaction l sig = none →
      l.any (fun n => n.id = fid) = false →
      ((handleAddPaymentNote l uid sig txt fid now).1.filter
          (fun n => n.transactionSignature = sig)).length = 1) := by
  constructor
  · intro n0 hn0
    refine ⟨?_, List.mem_of_find?_eq_some hn0⟩
    unfold handleAddPaymentNote
    rw [hn0]
  · intro hnone hfresh
    unfold handleAddPaymentNote
    rw [hnone]
    dsimp only
    unfold addPaymentNote noteSet
    rw [if_neg (by simp [hfresh])]
    rw [List.filter_append]
    have hnil : l.filter (fun n => n.transactionSignature = sig) = [] := by
      rw [List.filter_eq_nil_iff]
      intro a ha
      have h := List.find?_eq_none.mp hnone a ha
      simpa using h
    rw [hnil]
    simp

/-- Witness for the amended C6: the command path rejects the duplicate on
`tx1` and leaves the store unchanged; on a fresh transaction `tx2` it adds
exactly one note. -/
theorem note_duplicate_rejected_witness :
    (handleAddPaymentNote [sampleNote] "u" "tx1" "again" "n2" 5 =
      ([sampleNote], false) ∧ sampleNote ∈ [sampleNote]) ∧
    ((handleAddPaymentNote [sampleNote] "u" "tx2" "more" "n2" 5).1.filter
        (fun n => n.transactionSignature = "tx2")).length = 1 :=
  ⟨(note_duplicate_rejected_command_path [sampleNote] "u" "tx1" "again"
        "n2" 5).1 sampleNote rfl,
   (note_duplicate_rejected_command_path [sampleNote] "u" "tx2" "more"
        "n2" 5).2 rfl (by decide)⟩

/-- `find?` by id commutes with mapping an id-preserving function. -/
theorem find?_id_map (f : ExpectedPayment → ExpectedPayment)
    (hid : ∀ r, (f r).id = r.id) (l : List ExpectedPayment) (pid : String) :
    List.find? (fun r => r.id = pid) (l.map f) =
      (List.find? (fun r => r.id = pid) l).map f := by
  induction l with
  | nil => simp
  | cons a t ih =>
      by_cases ha : a.id = pid
      · rw [List.map_cons,
          List.find?_cons_of_pos _ (by simpa [hid] using ha),
          List.find?_cons_of_pos _ (by simpa using ha)]
        rfl
      · rw [List.map_cons,
          List.find?_cons_of_neg _ (by simpa [hid] using ha),
          List.find?_cons_of_neg _ (by simpa using ha)]
        exact ih

/-- `mapGet` after mapping an id-preserving function. -/
theorem mapGet_map (f : ExpectedPayment → ExpectedPayment)
    (hid : ∀ r, (f r).id = r.id) (l : List ExpectedPayment) (pid : String) :
    mapGet (l.map f) pid = (mapGet l pid).map f :=
  find?_id_map f hid l pid

/-- A successful `mapGet` returns a member carrying the requested id. -/
theorem mapGet_eq_some_imp (l : List ExpectedPayment) (pid : String)
    (p : ExpectedPayment) (h : mapGet l pid = some p) :
    p ∈ l ∧ p.id = pid := by
  refine ⟨List.mem_of_find?_eq_some h, ?_⟩
  have := List.find?_some h
  simpa using this

/-- Setting a key other than the one read leaves `Map.get` unchanged. -/
theorem mapGet_mapSet_ne (l : List ExpectedPayment) (q : ExpectedPayment)
    (pid : String) (hne : q.id ≠ pid) :
    mapGet (mapSet l q) pid = mapGet l pid := by
  unfold mapSet
  by_cases h : l.any (fun r => r.id = q.id) = true
  · rw [if_pos h]
    have hid : ∀ r : ExpectedPayment,
        ((fun r => if r.id = q.id then q else r) r).id = r.id := by
      intro r
      dsimp only
      by_cases hr : r.id = q.id
      · rw [if_pos hr, hr]
      · rw [if_neg hr]
    rw [show mapGet (l.map fun r => if r.id = q.id then q else r) pid =
        (mapGet l pid).map (fun r => if r.id = q.id then q else r) from
      mapGet_map _ hid l pid]
    cases hg : mapGet l pid with
    | none => rfl
    | some r =>
        have hr := (mapGet_eq_some_imp l pid r hg).2
        have : ¬ r.id = q.id := by rw [hr]; exact fun hh => hne hh.symm
        simp [this]
  · rw [if_neg h]
    unfold mapGet
    induction l with
    | nil => simp [List.find?, hne]
    | cons a t ih =>
        have hta : ¬ t.any (fun r => r.id = q.id) = true := by
          intro hh
          exact h (by simp only [List.any_cons, hh, Bool.or_true])
        by_cases hap : a.id = pid
        · rw [List.cons_append,
            List.find?_cons_of_pos _ (by simpa using hap),
            List.find?_cons_of_pos _ (by simpa using hap)]
        · rw [List.cons_append,
            List.find?_cons_of_neg _ (by simpa using hap),
            List.find?_cons_of_neg _ (by simpa using hap)]
          exact ih hta

/-- Mapping an id-preserving function leaves the id list unchanged. -/
theorem ids_map_of_id_preserved (f : ExpectedPayment → ExpectedPayment)
    (hid : ∀ r, (f r).id = r.id) (l : List ExpectedPayment) :
    (l.map f).map ExpectedPayment.id = l.map ExpectedPayment.id := by
  rw [List.map_map]
  exact List.map_congr_left (fun a _ => hid a)

/-- `Map.set` keeps the ids duplicate-free. -/
theorem nodup_ids_mapSet (l : List ExpectedPayment) (q : ExpectedPayment)
    (h : (l.map ExpectedPayment.id).Nodup) :
    ((mapSet l q).map ExpectedPayment.id).Nodup := by
  unfold mapSet
  by_cases hq : l.any (fun r => r.id = q.id) = true
  · rw [if_pos hq]
    rw [ids_map_of_id_preserved _ (fun r => by
      show (if r.id = q.id then q else r).id = r.id
      by_cases hr : r.id = q.id
      · rw [if_pos hr, hr]
      · rw [if_neg hr])]
    exact h
  · rw [if_neg hq, List.map_append]
    rw [List.nodup_append]
    refine ⟨h, List.nodup_singleton _, ?_⟩
    intro x hx hx1
    simp only [List.map_cons, List.map_nil, List.mem_singleton] at hx1
    subst hx1
    rw [List.mem_map] at hx
    obtain ⟨r, hr, hrid⟩ := hx
    exact hq (by simp only [List.any_eq_true]; exact ⟨r, hr, by simpa using hrid⟩)

/-- Filtering keeps the ids duplicate-free. -/
theorem nodup_ids_filter (l : List ExpectedPayment)
    (g : ExpectedPayment → Bool) (h : (l.map ExpectedPayment.id).Nodup) :
    ((l.filter g).map ExpectedPayment.id).Nodup :=
  ((l.filter_sublist).map ExpectedPayment.id).nodup h

/-- `mapGet` after deleting one id: the deleted id reads back nothing,
every other id is untouched. -/
theorem mapGet_filter_out_id (l : List ExpectedPayment) (rpid pid : String) :
    mapGet (l.filter (fun q => ¬ q.id = rpid)) pid =
      if pid = rpid then none else mapGet l pid := by
  induction l with
  | nil => by_cases hp : pid = rpid <;> simp [mapGet, hp]
  | cons a t ih =>
      by_cases ha : a.id = rpid
      · rw [List.filter_cons_of_neg (by simpa using ha)]
        rw [ih]
        by_cases hp : pid = rpid
        · rw [if_pos hp, if_pos hp]
        · rw [if_neg hp, if_neg hp]
          unfold mapGet
          rw [List.find?_cons_of_neg _ (by
            simp only [decide_eq_true_eq]
            rw [ha]
            exact fun hh => hp hh.symm)]
      · rw [List.filter_cons_of_pos (by simpa using ha)]
        by_cases hap : a.id = pid
        · have hp : ¬ pid = rpid := fun hh => ha (hap.trans hh)
          rw [if_neg hp]
          unfold mapGet
          rw [List.find?_cons_of_pos _ (by simpa using hap),
            List.find?_cons_of_pos _ (by simpa using hap)]
        · unfold mapGet
          rw [List.find?_cons_of_neg _ (by simpa using hap)]
          rw [show List.find? (fun q => q.id = pid) (a :: t) =
              List.find? (fun q => q.id = pid) t from
            List.find?_cons_of_neg _ (by simpa using hap)] at *
          exact ih

/-- A match returned by `findMatchingExpectedPayment` carries a pending
member of the store. -/
theorem findMatching_pending (l : List ExpectedPayment) (wa : String)
    (amt : ℚ) (tm : Option String) (m : ExpectedPaymentMatch)
    (h : findMatchingExpectedPayment l wa amt tm = some m) :
    m.expectedPayment ∈ l ∧ m.expectedPayment.status = PayStatus.pending := by
  unfold findMatchingExpectedPayment at h
  dsimp only at h
  cases h1 : List.find? (fun p => p.expectedAmount = amt)
      (pendingPaymentsFor l wa tm) with
  | some pay =>
      rw [h1] at h
      cases h
      have hmem := List.mem_of_find?_eq_some h1
      unfold pendingPaymentsFor at hmem
      rw [List.mem_filter] at hmem
      have hc := hmem.2
      simp only [Bool.and_eq_true, decide_eq_true_eq] at hc
      exact ⟨hmem.1, hc.1.2⟩
  | none =>
      rw [h1] at h
      cases h2 : List.find? (toleranceQualifies amt)
          (pendingPaymentsFor l wa tm) with
      | some pay =>
          rw [h2] at h
          cases h
          have hmem := List.mem_of_find?_eq_some h2
          unfold pendingPaymentsFor at hmem
          rw [List.mem_filter] at hmem
          have hc := hmem.2
          simp only [Bool.and_eq_true, decide_eq_true_eq] at hc
          exact ⟨hmem.1, hc.1.2⟩
      | none => rw [h2] at h; cases h

/-- One program-level store operation (no raw status update, adds with a
fresh id) keeps ids duplicate-free and never changes the tracked
non-pending payment: the entry either disappears or keeps its exact
value. -/
theorem storeStep_preserves_terminal
    (l : List ExpectedPayment) (pid : String) (p : ExpectedPayment)
    (op : StoreOp)
    (hnodup : (l.map ExpectedPayment.id).Nodup)
    (hinv : mapGet l pid = none ∨ mapGet l pid = some p)
    (hst : p.status ≠ PayStatus.pending)
    (hop : ∀ pid' s, op ≠ StoreOp.updateStatus pid' s)
    (hfresh : ∀ q, op = StoreOp.add q → q.id ≠ pid) :
    ((storeStep l op).map ExpectedPayment.id).Nodup ∧
      (mapGet (storeStep l op) pid = none ∨
        mapGet (storeStep l op) pid = some p) := by
  cases op with
  | add q =>
      unfold storeStep addExpectedPayment
      rw [mapGet_mapSet_ne l q pid (hfresh q rfl)]
      exact ⟨nodup_ids_mapSet l q hnodup, hinv⟩
  | remove uid rpid =>
      unfold storeStep
      dsimp only
      cases hrem : removeExpectedPayment l uid rpid with
      | error e => exact ⟨hnodup, hinv⟩
      | ok l' =>
          unfold removeExpectedPayment at hrem
          cases hg : mapGet l rpid with
          | none => rw [hg] at hrem; cases hrem
          | some payment =>
              rw [hg] at hrem
              dsimp only at hrem
              split_ifs at hrem with hauth
              cases hrem
              dsimp only
              refine ⟨nodup_ids_filter l _ hnodup, ?_⟩
              rw [mapGet_filter_out_id l rpid pid]
              by_cases hp : pid = rpid
              · rw [if_pos hp]; exact Or.inl rfl
              · rw [if_neg hp]; exact hinv
  | updateStatus pid' s => exact absurd rfl (hop pid' s)
  | cleanup now =>
      unfold storeStep cleanupExpiredPayments
      have hid : ∀ r : ExpectedPayment,
          ((fun r => if isOverduePending now r then
            { r with status := PayStatus.expired } else r) r).id = r.id := by
        intro r
        show (if isOverduePending now r then
          { r with status := PayStatus.expired } else r).id = r.id
        by_cases hr : isOverduePending now r = true
        · rw [if_pos hr]
        · rw [if_neg hr]
      refine ⟨by rw [ids_map_of_id_preserved _ hid]; exact hnodup, ?_⟩
      rw [mapGet_map _ hid l pid]
      rcases hinv with hnone | hsome
      · rw [hnone]; exact Or.inl rfl
      · rw [hsome]
        refine Or.inr ?_
        have hov : isOverduePending now p = false := by
          unfold isOverduePending
          rw [decide_eq_false hst, Bool.and_false]
        simp [hov]
  | matchReceive wa amt tm =>
      unfold storeStep matchAndReceive
      dsimp only
      cases hfind : findMatchingExpectedPayment l wa amt tm with
      | none => exact ⟨hnodup, hinv⟩
      | some m =>
          dsimp only
          unfold handleMatchPayments
          cases hupd2 : updateExpectedPaymentStatus l m.expectedPayment.id
              PayStatus.received with
          | error e => exact ⟨hnodup, hinv⟩
          | ok l' =>
              dsimp only
              unfold updateExpectedPaymentStatus at hupd2
              cases hg : mapGet l m.expectedPayment.id with
              | none => rw [hg] at hupd2; cases hupd2
              | some q =>
                  rw [hg] at hupd2
                  cases hupd2
                  have hid : ∀ r : ExpectedPayment,
                      ((fun r => if r.id = m.expectedPayment.id then
                        { r with status := PayStatus.received } else r) r).id =
                        r.id := by
                    intro r
                    show (if r.id = m.expectedPayment.id then
                      { r with status := PayStatus.received } else r).id = r.id
                    by_cases hr : r.id = m.expectedPayment.id
                    · rw [if_pos hr]
                    · rw [if_neg hr]
                  refine ⟨by rw [ids_map_of_id_preserved _ hid]; exact hnodup, ?_⟩
                  rw [mapGet_map _ hid l pid]
                  rcases hinv with hnone | hsome
                  · rw [hnone]; exact Or.inl rfl
                  · rw [hsome]
                    refine Or.inr ?_
                    obtain ⟨hpmem, hpid⟩ := mapGet_eq_some_imp l pid p hsome
                    obtain ⟨hmmem, hmpend⟩ :=
                      findMatching_pending l wa amt tm m hfind
                    have hne : ¬ p.id = m.expectedPayment.id := by
                      intro hh
                      have heq := List.inj_on_of_nodup_map hnodup hpmem
                        hmmem hh
                      rw [heq] at hst
                      exact hst hmpend
                    simp [hne]

/-- Program-level operation sequences keep ids duplicate-free and keep the
tracked non-pending payment intact (present-and-unchanged or removed). -/
theorem storeRun_preserves_terminal
    (ops : List StoreOp) (l : List ExpectedPayment) (pid : String)
    (p : ExpectedPayment)
    (hnodup : (l.map ExpectedPayment.id).Nodup)
    (hinv : mapGet l pid = none ∨ mapGet l pid = some p)
    (hst : p.status ≠ PayStatus.pending)
    (hop : ∀ pid' s, ¬ StoreOp.updateStatus pid' s ∈ ops)
    (hfresh : ∀ q, StoreOp.add q ∈ ops → q.id ≠ pid) :
    ((storeRun l ops).map ExpectedPayment.id).Nodup ∧
      (mapGet (storeRun l ops) pid = none ∨
        mapGet (storeRun l ops) pid = some p) := by
  induction ops generalizing l with
  | nil => exact ⟨hnodup, hinv⟩
  | cons op ops ih =>
      have hstep := storeStep_preserves_terminal l pid p op hnodup hinv hst
        (fun pid' s heq => hop pid' s (heq ▸ List.mem_cons_self op ops))
        (fun q heq => hfresh q (heq ▸ List.mem_cons_self op ops))
      exact ih (storeStep l op) hstep.1 hstep.2
        (fun pid' s hmem => hop pid' s (List.mem_cons_of_mem op hmem))
        (fun q hmem => hfresh q (List.mem_cons_of_mem op hmem))

/-- The sample payment already received. -/
def sampleReceivedPayment : ExpectedPayment :=
  { samplePayment with status := PayStatus.received }

/-- Counterexample to C1: the store operation
`updateExpectedPaymentStatus(id, 'pending')` moves a received payment
straight back to pending — the store itself enforces no one-way
discipline. -/
theorem status_not_one_way_counterexample :
    sampleReceivedPayment.status = PayStatus.received ∧
    storeRun [sampleReceivedPayment]
        [StoreOp.updateStatus "a" PayStatus.pending] =
      [{ sampleReceivedPayment with status := PayStatus.pending }] ∧
    (mapGet (storeRun [sampleReceivedPayment]
        [StoreOp.updateStatus "a" PayStatus.pending]) "a").map
      ExpectedPayment.status = some PayStatus.pending := by
  refine ⟨rfl, by decide, by decide⟩

/-- Claim C1 (amended): received and expired are terminal under the
operations as the program invokes them. For every store whose ids are
duplicate-free and every sequence of program-level operations — adds with
ids fresh for the tracked payment, removes, expiry cleanups and
match-driven receives, but no raw `updateExpectedPaymentStatus` call — a
payment whose status is `received` or `expired` keeps that status for as
long as it remains in the store. The raw status-update operation breaks
this (see the counterexample). -/
theorem received_expired_terminal_program_ops
    (ops : List StoreOp) (l : List ExpectedPayment) (pid : String)
    (p : ExpectedPayment)
    (hnodup : (l.map ExpectedPayment.id).Nodup)
    (hget : mapGet l pid = some p)
    (hst : p.status = PayStatus.received ∨ p.status = PayStatus.expired)
    (hop : ∀ pid' s, ¬ StoreOp.updateStatus pid' s ∈ ops)
    (hfresh : ∀ q, StoreOp.add q ∈ ops → q.id ≠ pid) :
    ∀ p', mapGet (storeRun l ops) pid = some p' → p'.status = p.status := by
  have hnp : p.status ≠ PayStatus.pending := by
    rcases hst with h | h <;> rw [h] <;> intro hh <;> cases hh
  intro p' hp'
  rcases (storeRun_preserves_terminal ops l pid p hnodup (Or.inr hget) hnp
      hop hfresh).2 with hn | hs
  · rw [hn] at hp'; cases hp'
  · rw [hs] at hp'
    cases hp'
    rfl

/-- The program-level operation sequence used by the C1 witness. -/
def sampleOps : List StoreOp :=
  [StoreOp.cleanup 100, StoreOp.matchReceive "W" 2 none,
    StoreOp.add sampleWideTolPayment, StoreOp.remove "u" "b"]

/-- Witness for the amended C1: across a cleanup, a match that receives
another payment, an add and a remove, the received sample payment keeps
its status. -/
theorem received_expired_terminal_witness :
    mapGet (storeRun [sampleReceivedPayment, sampleTolPayment] sampleOps)
      "a" = some sampleReceivedPayment ∧
    (mapGet (storeRun [sampleReceivedPayment, sampleTolPayment] sampleOps)
        "a").map ExpectedPayment.status = some PayStatus.received :=
  have hrun : mapGet (storeRun [sampleReceivedPayment, sampleTolPayment]
      sampleOps) "a" = some sampleReceivedPayment := by decide
  ⟨hrun, by
    have happ := received_expired_terminal_program_ops sampleOps
      [sampleReceivedPayment, sampleTolPayment] "a" sampleReceivedPayment
      (by decide) (by decide) (Or.inl rfl)
      (by intro pid' s hh; simp [sampleOps] at hh)
      (by intro q hh; simp [sampleOps] at hh; subst hh; decide)
      sampleReceivedPayment hrun
    rw [hrun]
    show some sampleReceivedPayment.status = some PayStatus.received
    exact congrArg Option.some
      (happ.trans (rfl : sampleReceivedPayment.status = PayStatus.received))⟩
